import Mathlib

/-!
Verification development for the session subsystem of the `go-universal/http`
repository (`src/session/session.go`, `src/session/option.go`).

The Go code is shallowly embedded as pure Lean functions:

* `Val` models JSON-serializable session values (Go `any` restricted to the
  JSON scalar types the session code actually stores; the claims never depend
  on nested structure).
* Session `data` (Go `map[string]any`) is an association list with
  no duplicate keys; Go map insert/delete become `mapSet`/`mapDel`.
* `json.Marshal` on a Go map emits the entries with keys in sorted order;
  `jsonMarshal` is therefore an insertion sort by key.  `json.Unmarshal`
  rebuilds a map with exactly those bindings, modeled by `jsonUnmarshal`.
* The external `go-universal/cache` adapter is the `Adapter` structure; its
  method results carry abstract error codes (`Res`).  `goodAdapter` is the
  error-free reference store described by the spec's Store Adapter contract.
* Durations (`time.Duration`) are modeled as mathematical integers; the
  claims are about branch logic, not 64-bit overflow.
* Every session operation returns an `OpRes`: the Go return value, the
  session state after the call, the store state after the call, and the
  trace of adapter calls and transport (cookie/header) emissions it issued.
* The id generator and `time.Now()` are external inputs; operations that
  consume them (`freshOp`, `newSession`) take the produced string as an
  explicit argument.
-/

namespace GoHttp

/-- JSON-serializable session values (Go `any` under `encoding/json`). -/
inductive Val where
  | vnull : Val
  | vbool (b : Bool) : Val
  | vnum (n : Int) : Val
  | vstr (s : String) : Val
  deriving DecidableEq

/-- Session data: Go `map[string]any` as an association list. -/
abbrev SData := List (String × Val)

/-- Serialized record value: the JSON object produced by `json.Marshal`. -/
abbrev Blob := SData

/-- `strings.TrimSpace`: strip leading and trailing whitespace characters. -/
def goTrim (s : String) : String :=
  String.mk
    (((s.data.dropWhile Char.isWhitespace).reverse.dropWhile
        Char.isWhitespace).reverse)

/-- Go map read `m[k]`. -/
def mapGet : SData → String → Option Val
  | [], _ => none
  | (k1, v) :: rest, k => if k1 = k then some v else mapGet rest k

/-- Go map write `m[k] = v` (replace the binding or append a new one). -/
def mapSet : SData → String → Val → SData
  | [], k, v => [(k, v)]
  | (k1, v1) :: rest, k, v =>
      if k1 = k then (k, v) :: rest else (k1, v1) :: mapSet rest k v

/-- Go `delete(m, k)`. -/
def mapDel : SData → String → SData
  | [], _ => []
  | (k1, v1) :: rest, k =>
      if k1 = k then mapDel rest k else (k1, v1) :: mapDel rest k

/-- Key membership in the association list. -/
def keyMem (k : String) : SData → Bool
  | [] => false
  | (k1, _) :: rest => k1 = k || keyMem k rest

/-- The association list binds each key at most once (Go map representation
invariant). -/
def keysND : SData → Bool
  | [] => true
  | (k1, _) :: rest => !keyMem k1 rest && keysND rest

/-- Lexicographic comparison of character lists by code point (the order in
which `encoding/json` sorts map keys; UTF-8 byte order agrees with code-point
order). -/
def strLeChars : List Char → List Char → Bool
  | [], _ => true
  | _ :: _, [] => false
  | a :: as, b :: bs =>
      if a.toNat < b.toNat then true
      else if b.toNat < a.toNat then false
      else strLeChars as bs

/-- Key order used by the serializer. -/
def strLe (a b : String) : Bool := strLeChars a.data b.data

/-- Insert an entry into a key-sorted list, keeping it sorted
(`encoding/json` emits map keys in sorted order). -/
def insertByKey (x : String × Val) : SData → SData
  | [] => [x]
  | y :: rest =>
      if strLe x.1 y.1 = true then x :: y :: rest else y :: insertByKey x rest

/-- `json.Marshal` of a Go map: the entries serialized with keys in sorted
order. -/
def jsonMarshal (m : SData) : Blob := m.foldr insertByKey []

/-- `json.Unmarshal` into a fresh map: a map holding exactly the serialized
object's bindings. -/
def jsonUnmarshal (b : Blob) : SData := b

/-- Result of a Go call that may return an error; error values are abstract
adapter error codes. -/
inductive Res (α : Type) where
  | ok (a : α) : Res α
  | err (e : Nat) : Res α
  deriving DecidableEq

/-- One observable effect of a session operation: an adapter call or a
transport (header/cookie) emission. -/
inductive Eff where
  | putE (k : String) (b : Blob) (t : Int) : Eff
  | updateE (k : String) (b : Blob) : Eff
  | ttlE (k : String) : Eff
  | forgetE (k : String) : Eff
  | existsE (k : String) : Eff
  | getE (k : String) : Eff
  | headerE (name id : String) : Eff
  | cookieE (name id : String) (expiresOffset : Int) : Eff
  deriving DecidableEq

/-- Effects that touch the store (as opposed to the response transport). -/
def Eff.isStoreCall : Eff → Bool
  | .putE _ _ _ => true
  | .updateE _ _ => true
  | .ttlE _ => true
  | .forgetE _ => true
  | .existsE _ => true
  | .getE _ => true
  | .headerE _ _ => false
  | .cookieE _ _ _ => false

/-- Session configuration (`option` in `src/session/option.go`); cookie
attributes other than the name are copied verbatim into the response and
carry no logic, so they are omitted. -/
structure Opt where
  ttl : Int
  name : String
  header : Bool
  readOnly : Bool
  deriving DecidableEq

/-- The mutable session record (`session` struct in `src/session/session.go`). -/
structure Sess where
  id : String
  data : SData
  ttl : Int
  fresh : Bool
  modified : Bool
  noop : Bool
  deriving DecidableEq

/-- The injected `go-universal/cache` adapter over store states `σ`.
`attl`, `ahas`, `aget` are read-only; `aput`, `aupdate`, `aforget` return the
new store state. -/
structure Adapter (σ : Type) where
  aput : σ → String → Blob → Int → Res σ
  aupdate : σ → String → Blob → Res (Bool × σ)
  attl : σ → String → Res Int
  aforget : σ → String → Res σ
  ahas : σ → String → Res Bool
  aget : σ → String → Res Blob

/-- Result of running one session operation: Go return value, session state
after the call, store state after the call, issued effects in order. -/
structure OpRes (σ : Type) (α : Type) where
  res : Res α
  sess : Sess
  store : σ
  effs : List Eff
  deriving DecidableEq

/-- Store key of a session (`s.k()`): `"ses-" + id`. -/
def sKey (s : Sess) : String := "ses-" ++ s.id

/-- `session.syncLocked` (transport synchronizer).  Header mode writes the id
into the response header.  Cookie mode computes the advertised expiry offset:
start from `s.ttl`; when not fresh, a negative pending value advertises its
magnitude and a positive one adds the store's remaining TTL when that is
positive. -/
def syncLocked {σ : Type} (A : Adapter σ) (o : Opt) (st : σ) (s : Sess) :
    Res Unit × List Eff :=
  if s.id = "" ∨ s.noop = true then (.ok (), [])
  else if o.header = true then (.ok (), [.headerE o.name s.id])
  else if s.fresh = false ∧ s.ttl < 0 then
    (.ok (), [.cookieE o.name s.id (-s.ttl)])
  else if s.fresh = false ∧ s.ttl > 0 then
    match A.attl st (sKey s) with
    | .err e => (.err e, [.ttlE (sKey s)])
    | .ok r =>
        (.ok (), [.ttlE (sKey s),
          .cookieE o.name s.id (if r > 0 then s.ttl + r else s.ttl)])
  else (.ok (), [.cookieE o.name s.id s.ttl])

/-- `session.Set`: ignored for a read-only-miss session; the key is trimmed
and an empty trimmed key is ignored; otherwise the binding is written and the
session marked modified. -/
def setOp (s : Sess) (k : String) (v : Val) : Sess :=
  if s.noop = true then s
  else if goTrim k = "" then s
  else { s with data := mapSet s.data (goTrim k) v, modified := true }

/-- `session.Delete`: ignored for a read-only-miss session; otherwise removes
the binding and marks the session modified. -/
def deleteOp (s : Sess) (k : String) : Sess :=
  if s.noop = true then s
  else { s with data := mapDel s.data k, modified := true }

/-- `session.AddTTL`: skip non-positive values and read-only-miss sessions;
otherwise schedule an extend (`ttl := t`), mark modified, and run the
transport synchronizer. -/
def addTTL {σ : Type} (A : Adapter σ) (o : Opt) (st : σ) (s : Sess) (t : Int) :
    OpRes σ Unit :=
  if t ≤ 0 ∨ s.noop = true then ⟨.ok (), s, st, []⟩
  else
    let s1 := { s with ttl := t, modified := true }
    let r := syncLocked A o st s1
    ⟨r.1, s1, st, r.2⟩

/-- `session.SetTTL`: skip non-positive values and read-only-miss sessions;
otherwise schedule an absolute set (`ttl := -t`), mark modified, and run the
transport synchronizer. -/
def setTTL {σ : Type} (A : Adapter σ) (o : Opt) (st : σ) (s : Sess) (t : Int) :
    OpRes σ Unit :=
  if t ≤ 0 ∨ s.noop = true then ⟨.ok (), s, st, []⟩
  else
    let s1 := { s with ttl := -t, modified := true }
    let r := syncLocked A o st s1
    ⟨r.1, s1, st, r.2⟩

/-- `session.Destroy`: skip empty-id and read-only-miss sessions; otherwise
delete the store record (propagating the error) and clear the session. -/
def destroy {σ : Type} (A : Adapter σ) (st : σ) (s : Sess) : OpRes σ Unit :=
  if s.id = "" ∨ s.noop = true then ⟨.ok (), s, st, []⟩
  else
    match A.aforget st (sKey s) with
    | .err e => ⟨.err e, s, st, [.forgetE (sKey s)]⟩
    | .ok st1 =>
        ⟨.ok (),
         { s with id := "", data := [], ttl := 0, fresh := false,
                  modified := false },
         st1, [.forgetE (sKey s)]⟩

/-- `session.Save` (the TTL reconciliation path): no-op for empty-id,
unchanged (`!fresh && !modified`) or read-only-miss sessions; otherwise
serialize the data and either `Put` with the configured TTL (fresh), `Put`
with the reconciled TTL (pending extend reads the remaining TTL first;
pending absolute set uses the encoded magnitude), or `Update` preserving the
store TTL.  The `ttl`/`fresh`/`modified` fields are cleared only after the
store call succeeds. -/
def save {σ : Type} (A : Adapter σ) (o : Opt) (st : σ) (s : Sess) :
    OpRes σ Unit :=
  if s.id = "" ∨ (s.fresh = false ∧ s.modified = false) ∨ s.noop = true then
    ⟨.ok (), s, st, []⟩
  else
    let enc := jsonMarshal s.data
    let done : Sess := { s with ttl := 0, fresh := false, modified := false }
    if s.fresh = true then
      match A.aput st (sKey s) enc o.ttl with
      | .err e => ⟨.err e, s, st, [.putE (sKey s) enc o.ttl]⟩
      | .ok st1 => ⟨.ok (), done, st1, [.putE (sKey s) enc o.ttl]⟩
    else if s.ttl > 0 then
      match A.attl st (sKey s) with
      | .err e => ⟨.err e, s, st, [.ttlE (sKey s)]⟩
      | .ok cur =>
          let t := if cur ≤ 0 then s.ttl else cur + s.ttl
          match A.aput st (sKey s) enc t with
          | .err e => ⟨.err e, s, st, [.ttlE (sKey s), .putE (sKey s) enc t]⟩
          | .ok st1 =>
              ⟨.ok (), done, st1, [.ttlE (sKey s), .putE (sKey s) enc t]⟩
    else if s.ttl < 0 then
      match A.aput st (sKey s) enc (-s.ttl) with
      | .err e => ⟨.err e, s, st, [.putE (sKey s) enc (-s.ttl)]⟩
      | .ok st1 => ⟨.ok (), done, st1, [.putE (sKey s) enc (-s.ttl)]⟩
    else
      match A.aupdate st (sKey s) enc with
      | .err e => ⟨.err e, s, st, [.updateE (sKey s) enc]⟩
      | .ok (_, st1) => ⟨.ok (), done, st1, [.updateE (sKey s) enc]⟩

/-- `session.Fresh`: ignored for a read-only-miss session; otherwise delete
the old record when an id is set (propagating the error), install the
generated id with data `{created_at: now}`, set the fresh/modified flags and
the configured default TTL, and run the transport synchronizer.  `newId` is
the string produced by the injected generator and `now` the formatted current
time. -/
def freshOp {σ : Type} (A : Adapter σ) (o : Opt) (st : σ) (s : Sess)
    (newId now : String) : OpRes σ Unit :=
  if s.noop = true then ⟨.ok (), s, st, []⟩
  else
    match (if s.id = "" then Res.ok st else A.aforget st (sKey s)) with
    | .err e => ⟨.err e, s, st, [.forgetE (sKey s)]⟩
    | .ok st1 =>
        let s1 : Sess :=
          { id := newId, data := [("created_at", Val.vstr now)], ttl := o.ttl,
            fresh := true, modified := true, noop := false }
        let r := syncLocked A o st1 s1
        ⟨r.1, s1, st1,
         (if s.id = "" then [] else [Eff.forgetE (sKey s)]) ++ r.2⟩

/-- `session.Load`: empty id loads nothing; otherwise check existence, fetch
the blob and decode it into a fresh data map. -/
def load {σ : Type} (A : Adapter σ) (st : σ) (s : Sess) : OpRes σ Bool :=
  if s.id = "" then ⟨.ok false, s, st, []⟩
  else
    match A.ahas st (sKey s) with
    | .err e => ⟨.err e, s, st, [.existsE (sKey s)]⟩
    | .ok false => ⟨.ok false, s, st, [.existsE (sKey s)]⟩
    | .ok true =>
        match A.aget st (sKey s) with
        | .err e => ⟨.err e, s, st, [.existsE (sKey s), .getE (sKey s)]⟩
        | .ok b =>
            ⟨.ok true, { s with data := jsonUnmarshal b }, st,
             [.existsE (sKey s), .getE (sKey s)]⟩

/-- `session.New` (read-only aware version): build the blank session with the
extracted id, try to load it; on a miss, read-only mode marks the session
no-op while normal mode creates a fresh session. -/
def newSession {σ : Type} (A : Adapter σ) (o : Opt) (st : σ)
    (extractedId newId now : String) : OpRes σ Unit :=
  let s0 : Sess :=
    { id := extractedId, data := [], ttl := 0, fresh := false,
      modified := false, noop := false }
  let lr := load A st s0
  match lr.res with
  | .err e => ⟨.err e, lr.sess, lr.store, lr.effs⟩
  | .ok true => ⟨.ok (), lr.sess, lr.store, lr.effs⟩
  | .ok false =>
      if o.readOnly = true then
        ⟨.ok (), { lr.sess with noop := true }, lr.store, lr.effs⟩
      else
        let fr := freshOp A o lr.store lr.sess newId now
        ⟨fr.res, fr.sess, fr.store, lr.effs ++ fr.effs⟩

/-- Reference store state: key, serialized value, remaining TTL. -/
abbrev StoreSt := List (String × Blob × Int)

/-- Record lookup in the reference store. -/
def storeLookup : StoreSt → String → Option (Blob × Int)
  | [], _ => none
  | (k1, b, t) :: rest, k =>
      if k1 = k then some (b, t) else storeLookup rest k

/-- `Put` on the reference store: replace the record or append a new one. -/
def storePut : StoreSt → String → Blob → Int → StoreSt
  | [], k, b, t => [(k, b, t)]
  | (k1, b1, t1) :: rest, k, b, t =>
      if k1 = k then (k, b, t) :: rest else (k1, b1, t1) :: storePut rest k b t

/-- `Forget` on the reference store. -/
def storeDel : StoreSt → String → StoreSt
  | [], _ => []
  | (k1, b1, t1) :: rest, k =>
      if k1 = k then storeDel rest k else (k1, b1, t1) :: storeDel rest k

/-- Remaining TTL reported by the reference store (0 for an absent key). -/
def storeTTLv (st : StoreSt) (k : String) : Int :=
  match storeLookup st k with
  | some (_, t) => t
  | none => 0

/-- The error-free reference adapter over `StoreSt`, following the spec's
Store Adapter contract: `update` rewrites the value preserving the TTL and
reports whether the key existed; `remainingTTL` of an absent key is not
positive. -/
def goodAdapter : Adapter StoreSt where
  aput st k b t := .ok (storePut st k b t)
  aupdate st k b :=
    match storeLookup st k with
    | some (_, t) => .ok (true, storePut st k b t)
    | none => .ok (false, st)
  attl st k := .ok (storeTTLv st k)
  aforget st k := .ok (storeDel st k)
  ahas st k := .ok (storeLookup st k).isSome
  aget st k :=
    match storeLookup st k with
    | some (b, _) => .ok b
    | none => .err 0

/-- Cookie expiry offsets occurring in an effect trace. -/
def cookieOffsets (effs : List Eff) : List Int :=
  effs.filterMap fun e =>
    match e with
    | .cookieE _ _ t => some t
    | _ => none

/-- TTL values passed to `Put` in an effect trace. -/
def putTTLs (effs : List Eff) : List Int :=
  effs.filterMap fun e =>
    match e with
    | .putE _ _ t => some t
    | _ => none

/-! ### Association-list map lemmas -/

theorem mapGet_mapSet (m : SData) (k : String) (v : Val) (k1 : String) :
    mapGet (mapSet m k v) k1 = if k = k1 then some v else mapGet m k1 := by
  induction m with
  | nil => simp [mapSet, mapGet, eq_comm]
  | cons a rest ih =>
    obtain ⟨ka, va⟩ := a
    by_cases h : ka = k
    · subst h
      by_cases h1 : ka = k1 <;> simp [mapSet, mapGet, h1]
    · by_cases h1 : ka = k1
      · subst h1
        have : ¬ k = ka := fun hh => h hh.symm
        simp [mapSet, mapGet, h, this]
      · simp [mapSet, mapGet, h, h1, ih]

theorem mapGet_mapDel (m : SData) (k : String) (k1 : String) :
    mapGet (mapDel m k) k1 = if k = k1 then none else mapGet m k1 := by
  induction m with
  | nil => simp [mapDel, mapGet]
  | cons a rest ih =>
    obtain ⟨ka, va⟩ := a
    by_cases h : ka = k
    · subst h
      by_cases h1 : ka = k1
      · subst h1; simp [mapDel, mapGet, ih]
      · simp [mapDel, mapGet, h1, ih]
    · by_cases h1 : ka = k1
      · subst h1
        have : ¬ k = ka := fun hh => h hh.symm
        simp [mapDel, mapGet, h, this]
      · simp [mapDel, mapGet, h, h1, ih]

theorem keyMem_mapSet (m : SData) (k : String) (v : Val) (k1 : String) :
    keyMem k1 (mapSet m k v) = (k = k1 || keyMem k1 m) := by
  induction m with
  | nil => simp [mapSet, keyMem]
  | cons a rest ih =>
    obtain ⟨ka, va⟩ := a
    by_cases h : ka = k
    · subst h; simp [mapSet, keyMem]
    · simp [mapSet, keyMem, h, ih]
      by_cases h1 : ka = k1 <;> by_cases h2 : k = k1 <;> simp [h1, h2]

theorem keyMem_mapDel_imp (m : SData) (k : String) (k1 : String)
    (h : keyMem k1 (mapDel m k) = true) : keyMem k1 m = true := by
  induction m with
  | nil => simp [mapDel, keyMem] at h
  | cons a rest ih =>
    obtain ⟨ka, va⟩ := a
    by_cases hk : ka = k
    · subst hk
      simp only [mapDel, if_pos rfl] at h
      simp [keyMem, ih h]
    · simp only [mapDel, if_neg hk, keyMem, Bool.or_eq_true] at h ⊢
      rcases h with h | h
      · exact Or.inl h
      · exact Or.inr (ih h)

theorem keysND_mapSet (m : SData) (k : String) (v : Val)
    (h : keysND m = true) : keysND (mapSet m k v) = true := by
  induction m with
  | nil => simp [mapSet, keysND, keyMem]
  | cons a rest ih =>
    obtain ⟨ka, va⟩ := a
    simp only [keysND, Bool.and_eq_true, Bool.not_eq_true'] at h
    by_cases hk : ka = k
    · subst hk
      simp [mapSet, keysND, h.1, h.2]
    · simp only [mapSet, if_neg hk, keysND, Bool.and_eq_true, Bool.not_eq_true']
      refine ⟨?_, ih h.2⟩
      rw [keyMem_mapSet]
      have : ¬ k = ka := fun hh => hk hh.symm
      simp [this, h.1]

theorem keysND_mapDel (m : SData) (k : String)
    (h : keysND m = true) : keysND (mapDel m k) = true := by
  induction m with
  | nil => simp [mapDel, keysND]
  | cons a rest ih =>
    obtain ⟨ka, va⟩ := a
    simp only [keysND, Bool.and_eq_true, Bool.not_eq_true'] at h
    by_cases hk : ka = k
    · subst hk
      simp only [mapDel, if_pos rfl]
      exact ih h.2
    · simp only [mapDel, if_neg hk, keysND, Bool.and_eq_true, Bool.not_eq_true']
      refine ⟨?_, ih h.2⟩
      by_cases hm : keyMem ka (mapDel rest k) = true
      · exact absurd (keyMem_mapDel_imp rest k ka hm) (by simp [h.1])
      · simpa using hm

/-! ### Serializer lemmas: sorting by key preserves the map content -/

theorem keyMem_insertByKey (x : String × Val) (l : SData) (k1 : String) :
    keyMem k1 (insertByKey x l) = (x.1 = k1 || keyMem k1 l) := by
  induction l with
  | nil => simp [insertByKey, keyMem]
  | cons y rest ih =>
    by_cases h : strLe x.1 y.1 = true
    · simp [insertByKey, h, keyMem]
    · simp [insertByKey, h, keyMem, ih]
      by_cases h1 : y.1 = k1 <;> by_cases h2 : x.1 = k1 <;> simp [h1, h2]

theorem mapGet_insertByKey (x : String × Val) (l : SData) (k : String)
    (hx : keyMem x.1 l = false) :
    mapGet (insertByKey x l) k = if x.1 = k then some x.2 else mapGet l k := by
  obtain ⟨kx, vx⟩ := x
  induction l with
  | nil => simp [insertByKey, mapGet]
  | cons y rest ih =>
    obtain ⟨ky, vy⟩ := y
    simp only [keyMem, Bool.or_eq_false_iff] at hx
    by_cases h : strLe kx ky = true
    · simp only [insertByKey, h, if_true, mapGet]
    · by_cases h1 : ky = k
      · subst h1
        have hxk : ¬ kx = ky := by
          intro hh
          exact absurd hx.1 (by simp [hh])
        simp [insertByKey, h, mapGet, hxk]
      · simp [insertByKey, h, mapGet, h1, ih hx.2]

theorem keyMem_jsonMarshal (m : SData) (k : String) :
    keyMem k (jsonMarshal m) = keyMem k m := by
  induction m with
  | nil => simp [jsonMarshal, keyMem]
  | cons a rest ih =>
    simp only [jsonMarshal, List.foldr] at ih ⊢
    rw [keyMem_insertByKey, ih]
    obtain ⟨ka, va⟩ := a
    simp [keyMem]

theorem mapGet_jsonMarshal (m : SData) (k : String) (h : keysND m = true) :
    mapGet (jsonMarshal m) k = mapGet m k := by
  induction m with
  | nil => simp [jsonMarshal, mapGet]
  | cons a rest ih =>
    obtain ⟨ka, va⟩ := a
    simp only [keysND, Bool.and_eq_true, Bool.not_eq_true'] at h
    simp only [jsonMarshal, List.foldr] at ih ⊢
    have hmem : keyMem ka (List.foldr insertByKey [] rest) = false := by
      have := keyMem_jsonMarshal rest ka
      simp only [jsonMarshal] at this
      rw [this, h.1]
    rw [mapGet_insertByKey ⟨ka, va⟩ _ k hmem]
    by_cases h1 : ka = k <;> simp [mapGet, h1, ih h.2]

/-! ### Reference store lemmas -/

theorem storeLookup_storePut (st : StoreSt) (k : String) (b : Blob) (t : Int)
    (k1 : String) :
    storeLookup (storePut st k b t) k1 =
      if k = k1 then some (b, t) else storeLookup st k1 := by
  induction st with
  | nil => simp [storePut, storeLookup, eq_comm]
  | cons a rest ih =>
    obtain ⟨ka, ba, ta⟩ := a
    by_cases h : ka = k
    · subst h
      by_cases h1 : ka = k1 <;> simp [storePut, storeLookup, h1]
    · by_cases h1 : ka = k1
      · subst h1
        have : ¬ k = ka := fun hh => h hh.symm
        simp [storePut, storeLookup, h, this]
      · simp [storePut, storeLookup, h, h1, ih]

theorem storeLookup_storeDel (st : StoreSt) (k : String) (k1 : String) :
    storeLookup (storeDel st k) k1 =
      if k = k1 then none else storeLookup st k1 := by
  induction st with
  | nil => simp [storeDel, storeLookup]
  | cons a rest ih =>
    obtain ⟨ka, ba, ta⟩ := a
    by_cases h : ka = k
    · subst h
      by_cases h1 : ka = k1
      · subst h1; simp [storeDel, storeLookup, ih]
      · simp [storeDel, storeLookup, h1, ih]
    · by_cases h1 : ka = k1
      · subst h1
        have : ¬ k = ka := fun hh => h hh.symm
        simp [storeDel, storeLookup, h, this]
      · simp [storeDel, storeLookup, h, h1, ih]

/-! ### Claim theorems -/

/-- Claim C3: `Save` on a session with `modified = false` and `fresh = false`
returns nil, issues zero store calls and zero transport effects, and leaves
the session and the store unchanged, for every adapter. -/
theorem c3_save_unmodified_noop {σ : Type} (A : Adapter σ) (o : Opt) (st : σ)
    (s : Sess) (hfresh : s.fresh = false) (hmod : s.modified = false) :
    save A o st s = ⟨.ok (), s, st, []⟩ := by
  simp [save, hfresh, hmod]

/-- Witness for C3 at a concrete unmodified, non-fresh session. -/
theorem c3_witness :
    (⟨"i", [("created_at", Val.vstr "T")], 0, false, false, false⟩ : Sess).fresh
        = false ∧
    save goodAdapter ⟨10, "sid", false, false⟩ [("ses-i", [], 7)]
        ⟨"i", [("created_at", Val.vstr "T")], 0, false, false, false⟩ =
      ⟨.ok (), ⟨"i", [("created_at", Val.vstr "T")], 0, false, false, false⟩,
       [("ses-i", [], 7)], []⟩ :=
  ⟨by decide,
   c3_save_unmodified_noop goodAdapter ⟨10, "sid", false, false⟩
     [("ses-i", [], 7)]
     ⟨"i", [("created_at", Val.vstr "T")], 0, false, false, false⟩
     (by decide) (by decide)⟩

/-- Claim C1: on a live (`id ≠ ""`, not read-only-miss), non-fresh, modified
session with a pending extend request `ttl = d > 0`, `Save` succeeds and
persists the serialized data with TTL `r + d` when the store's remaining TTL
`r` is positive and with TTL exactly `d` when `r ≤ 0`. -/
theorem c1_addttl_reconciliation (o : Opt) (st : StoreSt) (s : Sess)
    (hid : s.id ≠ "") (hnoop : s.noop = false) (hfresh : s.fresh = false)
    (hmod : s.modified = true) (hpos : 0 < s.ttl) :
    (save goodAdapter o st s).res = .ok () ∧
    (0 < storeTTLv st (sKey s) →
      storeLookup (save goodAdapter o st s).store (sKey s) =
        some (jsonMarshal s.data, storeTTLv st (sKey s) + s.ttl)) ∧
    (storeTTLv st (sKey s) ≤ 0 →
      storeLookup (save goodAdapter o st s).store (sKey s) =
        some (jsonMarshal s.data, s.ttl)) := by
  have hsave : save goodAdapter o st s =
      ⟨.ok (), { s with ttl := 0, fresh := false, modified := false },
       storePut st (sKey s) (jsonMarshal s.data)
         (if storeTTLv st (sKey s) ≤ 0 then s.ttl
          else storeTTLv st (sKey s) + s.ttl),
       [.ttlE (sKey s),
        .putE (sKey s) (jsonMarshal s.data)
          (if storeTTLv st (sKey s) ≤ 0 then s.ttl
           else storeTTLv st (sKey s) + s.ttl)]⟩ := by
    simp [save, hid, hmod, hnoop, hfresh, hpos, goodAdapter]
  rw [hsave]
  refine ⟨rfl, ?_, ?_⟩
  · intro hr
    simp [storeLookup_storePut, not_le.2 hr]
  · intro hr
    simp [storeLookup_storePut, hr]

/-- Witness for C1: remaining TTL 7, pending extend 5, persisted TTL 12. -/
theorem c1_witness :
    (0 : Int) < 7 ∧
    storeLookup
        (save goodAdapter ⟨10, "sid", false, false⟩ [("ses-i", [], 7)]
          ⟨"i", [("a", Val.vstr "1")], 5, false, true, false⟩).store "ses-i" =
      some ([("a", Val.vstr "1")], 7 + 5) :=
  ⟨by decide,
   (c1_addttl_reconciliation ⟨10, "sid", false, false⟩ [("ses-i", [], 7)]
      ⟨"i", [("a", Val.vstr "1")], 5, false, true, false⟩
      (by decide) (by decide) (by decide) (by decide) (by decide)).2.1
     (by decide)⟩

/-- Claim C2: on a live, non-fresh, modified session whose last TTL request
was `SetTTL d` (`ttl = -d`, `d > 0`), `Save` succeeds, persists the
serialized data with TTL exactly `d`, and issues only the `Put` call — no
TTL read — so the prior remaining TTL is irrelevant. -/
theorem c2_setttl_absolute (o : Opt) (st : StoreSt) (s : Sess) (d : Int)
    (hid : s.id ≠ "") (hnoop : s.noop = false) (hfresh : s.fresh = false)
    (hmod : s.modified = true) (hd : 0 < d) (henc : s.ttl = -d) :
    (save goodAdapter o st s).res = .ok () ∧
    storeLookup (save goodAdapter o st s).store (sKey s) =
      some (jsonMarshal s.data, d) ∧
    (save goodAdapter o st s).effs =
      [.putE (sKey s) (jsonMarshal s.data) d] := by
  have hneg : s.ttl < 0 := by omega
  have hnpos : ¬ s.ttl > 0 := by omega
  have hflip : -s.ttl = d := by omega
  have hsave : save goodAdapter o st s =
      ⟨.ok (), { s with ttl := 0, fresh := false, modified := false },
       storePut st (sKey s) (jsonMarshal s.data) d,
       [.putE (sKey s) (jsonMarshal s.data) d]⟩ := by
    simp [save, hid, hmod, hnoop, hfresh, hnpos, hneg, goodAdapter, hflip]
  rw [hsave]
  exact ⟨rfl, by simp [storeLookup_storePut], rfl⟩

/-- Witness for C2: prior remaining TTL 99, `SetTTL 5`, persisted TTL 5. -/
theorem c2_witness :
    (0 : Int) < 5 ∧
    storeLookup
        (save goodAdapter ⟨10, "sid", false, false⟩ [("ses-i", [], 99)]
          ⟨"i", [("a", Val.vstr "1")], -5, false, true, false⟩).store "ses-i" =
      some ([("a", Val.vstr "1")], 5) :=
  ⟨by decide,
   (c2_setttl_absolute ⟨10, "sid", false, false⟩ [("ses-i", [], 99)]
      ⟨"i", [("a", Val.vstr "1")], -5, false, true, false⟩ 5
      (by decide) (by decide) (by decide) (by decide) (by decide)
      (by decide)).2.1⟩

/-- Claim C10 counterexample: on a read-only-miss (`noop = true`) session,
`Set` with a key that does not trim to empty stores nothing and does not set
`modified`, contradicting the claim's unconditional "otherwise the value is
stored under the trimmed key and modified becomes true". -/
theorem c10_counterexample :
    goTrim "a" ≠ "" ∧
    mapGet (setOp ⟨"x", [], 0, false, false, true⟩ "a" (Val.vstr "1")).data
        (goTrim "a") ≠ some (Val.vstr "1") ∧
    (setOp ⟨"x", [], 0, false, false, true⟩ "a" (Val.vstr "1")).modified =
      false := by
  decide

/-- Claim C10 (amended): for every `Set(k, v)` on a session that is not a
read-only miss, a key trimming to empty leaves the session unchanged;
otherwise the value is stored under the trimmed key, `modified` becomes true
and the remaining fields are unchanged. -/
theorem c10_set_trim (s : Sess) (k : String) (v : Val)
    (hnoop : s.noop = false) :
    (goTrim k = "" → setOp s k v = s) ∧
    (goTrim k ≠ "" →
      (setOp s k v).data = mapSet s.data (goTrim k) v ∧
      mapGet (setOp s k v).data (goTrim k) = some v ∧
      (setOp s k v).modified = true ∧
      (setOp s k v).id = s.id ∧ (setOp s k v).ttl = s.ttl ∧
      (setOp s k v).fresh = s.fresh ∧ (setOp s k v).noop = s.noop) := by
  constructor
  · intro h
    simp [setOp, hnoop, h]
  · intro h
    simp [setOp, hnoop, h, mapGet_mapSet]

/-- Witness for C10: a blank key is ignored, a padded key is trimmed and
stored. -/
theorem c10_witness :
    setOp ⟨"i", [], 0, false, false, false⟩ "  " (Val.vstr "1") =
      ⟨"i", [], 0, false, false, false⟩ ∧
    mapGet (setOp ⟨"i", [], 0, false, false, false⟩ " a " (Val.vstr "1")).data
        (goTrim " a ") = some (Val.vstr "1") :=
  ⟨(c10_set_trim ⟨"i", [], 0, false, false, false⟩ "  " (Val.vstr "1")
      (by decide)).1 (by decide),
   ((c10_set_trim ⟨"i", [], 0, false, false, false⟩ " a " (Val.vstr "1")
      (by decide)).2 (by decide)).2.1⟩

/-- Claim C6: constructing a session in read-only mode whose extracted id is
not in the store yields a no-op session: `noop = true`, `fresh = false`, the
id is exactly the caller-supplied one (no synthesis), and on that session
`Set`, `Delete`, `AddTTL`, `SetTTL`, `Destroy` and `Fresh` leave it unchanged
(issuing no calls) while `Save` returns nil with zero store calls — over any
adapter. -/
theorem c6_readonly_miss (o : Opt) (st : StoreSt)
    (extractedId newId now : String) (hro : o.readOnly = true)
    (habsent : storeLookup st ("ses-" ++ extractedId) = none) :
    (newSession goodAdapter o st extractedId newId now).res = .ok () ∧
    (newSession goodAdapter o st extractedId newId now).sess =
      ⟨extractedId, [], 0, false, false, true⟩ ∧
    (∀ (k : String) (v : Val),
      setOp ⟨extractedId, [], 0, false, false, true⟩ k v =
        ⟨extractedId, [], 0, false, false, true⟩) ∧
    (∀ (k : String),
      deleteOp ⟨extractedId, [], 0, false, false, true⟩ k =
        ⟨extractedId, [], 0, false, false, true⟩) ∧
    (∀ (σ2 : Type) (A2 : Adapter σ2) (o2 : Opt) (st2 : σ2) (t : Int),
      addTTL A2 o2 st2 ⟨extractedId, [], 0, false, false, true⟩ t =
        ⟨.ok (), ⟨extractedId, [], 0, false, false, true⟩, st2, []⟩) ∧
    (∀ (σ2 : Type) (A2 : Adapter σ2) (o2 : Opt) (st2 : σ2) (t : Int),
      setTTL A2 o2 st2 ⟨extractedId, [], 0, false, false, true⟩ t =
        ⟨.ok (), ⟨extractedId, [], 0, false, false, true⟩, st2, []⟩) ∧
    (∀ (σ2 : Type) (A2 : Adapter σ2) (st2 : σ2),
      destroy A2 st2 ⟨extractedId, [], 0, false, false, true⟩ =
        ⟨.ok (), ⟨extractedId, [], 0, false, false, true⟩, st2, []⟩) ∧
    (∀ (σ2 : Type) (A2 : Adapter σ2) (o2 : Opt) (st2 : σ2) (nid nw : String),
      freshOp A2 o2 st2 ⟨extractedId, [], 0, false, false, true⟩ nid nw =
        ⟨.ok (), ⟨extractedId, [], 0, false, false, true⟩, st2, []⟩) ∧
    (∀ (σ2 : Type) (A2 : Adapter σ2) (o2 : Opt) (st2 : σ2),
      save A2 o2 st2 ⟨extractedId, [], 0, false, false, true⟩ =
        ⟨.ok (), ⟨extractedId, [], 0, false, false, true⟩, st2, []⟩) := by
  have hns : newSession goodAdapter o st extractedId newId now =
      ⟨.ok (), ⟨extractedId, [], 0, false, false, true⟩, st,
       if extractedId = "" then [] else [.existsE ("ses-" ++ extractedId)]⟩ := by
    by_cases hE : extractedId = ""
    · subst hE
      simp [newSession, load, hro]
    · simp [newSession, load, sKey, hE, goodAdapter, habsent, hro]
  refine ⟨by rw [hns], by rw [hns], ?_, ?_, ?_, ?_, ?_, ?_, ?_⟩
  · intro k v
    simp [setOp]
  · intro k
    simp [deleteOp]
  · intro σ2 A2 o2 st2 t
    simp [addTTL]
  · intro σ2 A2 o2 st2 t
    simp [setTTL]
  · intro σ2 A2 st2
    simp [destroy]
  · intro σ2 A2 o2 st2 nid nw
    simp [freshOp]
  · intro σ2 A2 o2 st2
    simp [save]

/-- Witness for C6 at a concrete read-only configuration and missing id. -/
theorem c6_witness :
    (⟨10, "sid", false, true⟩ : Opt).readOnly = true ∧
    (newSession goodAdapter ⟨10, "sid", false, true⟩ [("ses-z", [], 5)]
        "abc" "gen" "T0").sess = ⟨"abc", [], 0, false, false, true⟩ :=
  ⟨by decide,
   (c6_readonly_miss ⟨10, "sid", false, true⟩ [("ses-z", [], 5)] "abc" "gen"
      "T0" (by decide) (by decide)).2.1⟩

/-- Claim C7 counterexample: after a successful `Destroy`, `Set` with a
non-blank key still changes the in-memory session (it writes the data map and
raises `modified`), so not every mutating operation is a no-op in the claimed
sense. -/
theorem c7_counterexample :
    (destroy goodAdapter [("ses-x", [], 3)]
        ⟨"x", [], 0, false, true, false⟩).res = .ok () ∧
    setOp (destroy goodAdapter [("ses-x", [], 3)]
          ⟨"x", [], 0, false, true, false⟩).sess "a" (Val.vstr "v") ≠
      (destroy goodAdapter [("ses-x", [], 3)]
          ⟨"x", [], 0, false, true, false⟩).sess := by
  decide

/-- Claim C7 (amended): a successful `Destroy` clears the session
(`id = ""`), and as long as `Fresh` is not called the session stays inert
toward the store and the transport: every subsequent `Save` and `Destroy`
returns nil, changes nothing and issues zero calls, `AddTTL`/`SetTTL` return
nil with zero store calls and zero transport effects and keep `id = ""`, and
`Set`/`Delete` touch no store yet still mutate the in-memory data. -/
theorem c7_destroyed_inert (st : StoreSt) (s : Sess)
    (hid : s.id ≠ "") (hnoop : s.noop = false) :
    (destroy goodAdapter st s).res = .ok () ∧
    (destroy goodAdapter st s).sess = ⟨"", [], 0, false, false, false⟩ ∧
    ∀ (s1 : Sess), s1.id = "" →
      (∀ (σ2 : Type) (A2 : Adapter σ2) (o2 : Opt) (st2 : σ2),
        save A2 o2 st2 s1 = ⟨.ok (), s1, st2, []⟩) ∧
      (∀ (σ2 : Type) (A2 : Adapter σ2) (st2 : σ2),
        destroy A2 st2 s1 = ⟨.ok (), s1, st2, []⟩) ∧
      (∀ (σ2 : Type) (A2 : Adapter σ2) (o2 : Opt) (st2 : σ2) (t : Int),
        (addTTL A2 o2 st2 s1 t).res = .ok () ∧
        (addTTL A2 o2 st2 s1 t).effs = [] ∧
        (addTTL A2 o2 st2 s1 t).store = st2 ∧
        (addTTL A2 o2 st2 s1 t).sess.id = "") ∧
      (∀ (σ2 : Type) (A2 : Adapter σ2) (o2 : Opt) (st2 : σ2) (t : Int),
        (setTTL A2 o2 st2 s1 t).res = .ok () ∧
        (setTTL A2 o2 st2 s1 t).effs = [] ∧
        (setTTL A2 o2 st2 s1 t).store = st2 ∧
        (setTTL A2 o2 st2 s1 t).sess.id = "") ∧
      (∀ (k : String) (v : Val), (setOp s1 k v).id = "") ∧
      (∀ (k : String), (deleteOp s1 k).id = "") := by
  refine ⟨?_, ?_, ?_⟩
  · simp [destroy, hid, hnoop, goodAdapter]
  · simp [destroy, hid, hnoop, goodAdapter]
  · intro s1 h1
    refine ⟨?_, ?_, ?_, ?_, ?_, ?_⟩
    · intro σ2 A2 o2 st2
      simp [save, h1]
    · intro σ2 A2 st2
      simp [destroy, h1]
    · intro σ2 A2 o2 st2 t
      by_cases ht : t ≤ 0 <;> by_cases hn : s1.noop = true <;>
        simp [addTTL, ht, hn, syncLocked, h1]
    · intro σ2 A2 o2 st2 t
      by_cases ht : t ≤ 0 <;> by_cases hn : s1.noop = true <;>
        simp [setTTL, ht, hn, syncLocked, h1]
    · intro k v
      unfold setOp
      split_ifs <;> simp [h1]
    · intro k
      unfold deleteOp
      split_ifs <;> simp [h1]

/-- Witness for C7 (amended) at a concrete destroyed session. -/
theorem c7_witness :
    (destroy goodAdapter [("ses-x", [], 3)]
        ⟨"x", [], 0, false, true, false⟩).sess =
      ⟨"", [], 0, false, false, false⟩ ∧
    save goodAdapter ⟨10, "sid", false, false⟩ [("ses-x", [], 3)]
        ⟨"", [], 0, false, false, false⟩ =
      ⟨.ok (), ⟨"", [], 0, false, false, false⟩, [("ses-x", [], 3)], []⟩ :=
  ⟨(c7_destroyed_inert [("ses-x", [], 3)] ⟨"x", [], 0, false, true, false⟩
      (by decide) (by decide)).2.1,
   ((c7_destroyed_inert [("ses-x", [], 3)] ⟨"x", [], 0, false, true, false⟩
      (by decide) (by decide)).2.2 ⟨"", [], 0, false, false, false⟩
      (by decide)).1 StoreSt goodAdapter ⟨10, "sid", false, false⟩
     [("ses-x", [], 3)]⟩

/-- Claim C5: on a non-noop session, `Fresh` first deletes the old store
record when an id is set (propagating the adapter error, shown for any
adapter), then installs the generated id (non-empty and distinct from the
prior one by the generator contract), data exactly `{created_at: now}`,
`fresh = true`, `modified = true`, pending TTL = configured default, and
emits the transport effect for the new id before returning. -/
theorem c5_fresh (o : Opt) (st : StoreSt) (s : Sess) (newId now : String)
    (σ2 : Type) (A2 : Adapter σ2) (st2 : σ2)
    (hnoop : s.noop = false) (hnid : newId ≠ "") (hdist : newId ≠ s.id) :
    (∀ e, s.id ≠ "" → A2.aforget st2 (sKey s) = .err e →
      freshOp A2 o st2 s newId now = ⟨.err e, s, st2, [.forgetE (sKey s)]⟩) ∧
    (freshOp goodAdapter o st s newId now).res = .ok () ∧
    (freshOp goodAdapter o st s newId now).sess =
      ⟨newId, [("created_at", Val.vstr now)], o.ttl, true, true, false⟩ ∧
    newId ≠ "" ∧ newId ≠ s.id ∧
    (s.id ≠ "" →
      storeLookup (freshOp goodAdapter o st s newId now).store (sKey s) =
        none) ∧
    (freshOp goodAdapter o st s newId now).effs =
      (if s.id = "" then [] else [.forgetE (sKey s)]) ++
        [if o.header = true then .headerE o.name newId
         else .cookieE o.name newId o.ttl] := by
  have hfr : freshOp goodAdapter o st s newId now =
      ⟨.ok (), ⟨newId, [("created_at", Val.vstr now)], o.ttl, true, true,
        false⟩,
       if s.id = "" then st else storeDel st (sKey s),
       (if s.id = "" then [] else [.forgetE (sKey s)]) ++
         [if o.header = true then .headerE o.name newId
          else .cookieE o.name newId o.ttl]⟩ := by
    by_cases hE : s.id = "" <;>
      by_cases hh : o.header = true <;>
        simp [freshOp, hnoop, hE, goodAdapter, syncLocked, hnid, hh]
  refine ⟨?_, by rw [hfr], by rw [hfr], hnid, hdist, ?_, by rw [hfr]⟩
  · intro e hE herr
    simp [freshOp, hnoop, hE, herr]
  · intro hE
    rw [hfr]
    simp [hE, storeLookup_storeDel]

/-- Witness for C5: fresh over an existing record deletes it and emits the
cookie for the new id. -/
theorem c5_witness :
    ("y" : String) ≠ "" ∧
    (freshOp goodAdapter ⟨10, "sid", false, false⟩ [("ses-x", [], 3)]
        ⟨"x", [("a", Val.vstr "1")], 0, false, false, false⟩ "y" "T0").sess =
      ⟨"y", [("created_at", Val.vstr "T0")], 10, true, true, false⟩ :=
  ⟨by decide,
   (c5_fresh ⟨10, "sid", false, false⟩ [("ses-x", [], 3)]
      ⟨"x", [("a", Val.vstr "1")], 0, false, false, false⟩ "y" "T0"
      StoreSt goodAdapter [("ses-x", [], 3)]
      (by decide) (by decide) (by decide)).2.2.1⟩

/-- Exhaustive case split on `save`: either the call leaves the session and
store untouched (the no-op guard or an error path, with the guard recorded
when the result is still nil), or it succeeded and cleared the
`ttl`/`fresh`/`modified` fields. -/
theorem save_cases (σ2 : Type) (A2 : Adapter σ2) (o : Opt) (st : σ2)
    (s : Sess) :
    ((save A2 o st s).sess = s ∧ (save A2 o st s).store = st ∧
      ((save A2 o st s).res = .ok () →
        s.id = "" ∨ (s.fresh = false ∧ s.modified = false) ∨
          s.noop = true)) ∨
    ((save A2 o st s).res = .ok () ∧
      (save A2 o st s).sess =
        { s with ttl := 0, fresh := false, modified := false }) := by
  by_cases hg : s.id = "" ∨ (s.fresh = false ∧ s.modified = false) ∨
      s.noop = true
  · left
    simp [save, hg]
  · have hid : ¬ s.id = "" := fun h => hg (Or.inl h)
    have hnp : ¬ s.noop = true := fun h => hg (Or.inr (Or.inr h))
    by_cases hf : s.fresh = true
    · cases hput : A2.aput st (sKey s) (jsonMarshal s.data) o.ttl with
      | ok st1 =>
        right
        simp [save, hid, hnp, hf, hput]
      | err e =>
        left
        simp [save, hid, hnp, hf, hput]
    · have hf0 : s.fresh = false := Bool.eq_false_iff.mpr hf
      have hm : s.modified = true := by
        cases hb : s.modified
        · exact absurd (Or.inr (Or.inl ⟨hf0, hb⟩)) hg
        · rfl
      by_cases hp : s.ttl > 0
      · cases httl : A2.attl st (sKey s) with
        | err e =>
          left
          simp [save, hid, hnp, hm, hf0, hp, httl]
        | ok cur =>
          cases hput : A2.aput st (sKey s) (jsonMarshal s.data)
              (if cur ≤ 0 then s.ttl else cur + s.ttl) with
          | ok st1 =>
            right
            simp [save, hid, hnp, hm, hf0, hp, httl, hput]
          | err e =>
            left
            simp [save, hid, hnp, hm, hf0, hp, httl, hput]
      · by_cases hneg : s.ttl < 0
        · cases hput : A2.aput st (sKey s) (jsonMarshal s.data) (-s.ttl) with
          | ok st1 =>
            right
            simp [save, hid, hnp, hm, hf0, hp, hneg, hput]
          | err e =>
            left
            simp [save, hid, hnp, hm, hf0, hp, hneg, hput]
        · cases hupd : A2.aupdate st (sKey s) (jsonMarshal s.data) with
          | ok pr =>
            obtain ⟨b, st1⟩ := pr
            right
            simp [save, hid, hnp, hm, hf0, hp, hneg, hupd]
          | err e =>
            left
            simp [save, hid, hnp, hm, hf0, hp, hneg, hupd]

/-- Claim C9: on a live dirty session, whenever a store call made by `Save`
fails, `Save` returns that same error and leaves the whole session — in
particular `fresh`, `modified` and the pending TTL — and the store state
unchanged; `ttl`/`fresh`/`modified` are reset to `0`/`false`/`false` exactly
when the call chain succeeds.  Shown for every adapter and every call site
`Save` reaches: the `Put` when fresh, the TTL read for a pending extend, the
`Update` when no TTL is pending, the `Put` after a successful TTL read on
the extend path, and the `Put` on the absolute-set path. -/
theorem c9_save_error_frame (σ2 : Type) (A2 : Adapter σ2) (o : Opt) (st : σ2)
    (s : Sess) (hid : s.id ≠ "") (hnoop : s.noop = false)
    (hdirty : s.fresh = true ∨ s.modified = true) :
    (∀ e, (save A2 o st s).res = .err e →
      (save A2 o st s).sess = s ∧ (save A2 o st s).store = st) ∧
    ((save A2 o st s).res = .ok () →
      (save A2 o st s).sess.ttl = 0 ∧ (save A2 o st s).sess.fresh = false ∧
      (save A2 o st s).sess.modified = false) ∧
    (∀ e, s.fresh = true →
      A2.aput st (sKey s) (jsonMarshal s.data) o.ttl = .err e →
      (save A2 o st s).res = .err e) ∧
    (∀ e, s.fresh = false → 0 < s.ttl →
      A2.attl st (sKey s) = .err e → (save A2 o st s).res = .err e) ∧
    (∀ e, s.fresh = false → s.ttl = 0 →
      A2.aupdate st (sKey s) (jsonMarshal s.data) = .err e →
      (save A2 o st s).res = .err e) ∧
    (∀ e cur, s.fresh = false → 0 < s.ttl →
      A2.attl st (sKey s) = .ok cur →
      A2.aput st (sKey s) (jsonMarshal s.data)
          (if cur ≤ 0 then s.ttl else cur + s.ttl) = .err e →
      (save A2 o st s).res = .err e) ∧
    (∀ e, s.fresh = false → s.ttl < 0 →
      A2.aput st (sKey s) (jsonMarshal s.data) (-s.ttl) = .err e →
      (save A2 o st s).res = .err e) := by
  have hg : ¬ (s.id = "" ∨ (s.fresh = false ∧ s.modified = false) ∨
      s.noop = true) := by
    rcases hdirty with h | h <;> simp [hid, hnoop, h]
  refine ⟨?_, ?_, ?_, ?_, ?_, ?_, ?_⟩
  · intro e herr
    rcases save_cases σ2 A2 o st s with h | h
    · exact ⟨h.1, h.2.1⟩
    · rw [h.1] at herr
      exact absurd herr (by simp)
  · intro hok
    rcases save_cases σ2 A2 o st s with h | h
    · exact absurd (h.2.2 hok) hg
    · rw [h.2]
      exact ⟨rfl, rfl, rfl⟩
  · intro e hf hput
    simp [save, hid, hnoop, hf, hput]
  · intro e hf hp httl
    have hm : s.modified = true := hdirty.resolve_left (by simp [hf])
    simp [save, hid, hnoop, hm, hf, hp, httl]
  · intro e hf h0 hupd
    have hm : s.modified = true := hdirty.resolve_left (by simp [hf])
    simp [save, hid, hnoop, hm, hf, h0, hupd]
  · intro e cur hf hp httl hput
    have hm : s.modified = true := hdirty.resolve_left (by simp [hf])
    simp [save, hid, hnoop, hm, hf, hp, httl, hput]
  · intro e hf hneg hput
    have hm : s.modified = true := hdirty.resolve_left (by simp [hf])
    have hnp : ¬ s.ttl > 0 := by omega
    simp [save, hid, hnoop, hm, hf, hnp, hneg, hput]

/-- Witness for C9: a concrete adapter whose TTL read fails with error 7
makes `Save` of a pending-extend session fail with error 7 and keep the
session intact. -/
theorem c9_witness :
    ((⟨"i", [], 5, false, true, false⟩ : Sess).fresh = true ∨
      (⟨"i", [], 5, false, true, false⟩ : Sess).modified = true) ∧
    (save (Adapter.mk (fun st _ _ _ => .ok st) (fun st _ _ => .ok (true, st))
          (fun _ _ => .err 7) (fun st _ => .ok st) (fun _ _ => .ok true)
          (fun _ _ => .err 1)) ⟨10, "sid", false, false⟩ ()
        ⟨"i", [], 5, false, true, false⟩).res = .err 7 :=
  ⟨Or.inr rfl,
   (c9_save_error_frame Unit
      (Adapter.mk (fun st _ _ _ => .ok st) (fun st _ _ => .ok (true, st))
        (fun _ _ => .err 7) (fun st _ => .ok st) (fun _ _ => .ok true)
        (fun _ _ => .err 1)) ⟨10, "sid", false, false⟩ ()
      ⟨"i", [], 5, false, true, false⟩ (by decide) (by decide)
      (Or.inr rfl)).2.2.2.1 7 (by decide) (by decide) rfl⟩

/-- Claim C8 counterexample: with configured default TTL 10, run `Fresh`
(session becomes fresh with pending field 10) and then `AddTTL 5` (still
fresh, pending field overwritten to 5).  The synchronizer invoked by
`AddTTL` advertises a cookie expiry offset of 5, but `Save` from that same
state persists the record with TTL 10 — so the advertised offset is not the
TTL `Save` persists, contradicting the claim's "configured default TTL when
fresh" correspondence. -/
theorem c8_counterexample :
    cookieOffsets (addTTL goodAdapter ⟨10, "sid", false, false⟩
        (freshOp goodAdapter ⟨10, "sid", false, false⟩ []
          ⟨"", [], 0, false, false, false⟩ "x" "T0").store
        (freshOp goodAdapter ⟨10, "sid", false, false⟩ []
          ⟨"", [], 0, false, false, false⟩ "x" "T0").sess 5).effs = [5] ∧
    putTTLs (save goodAdapter ⟨10, "sid", false, false⟩
        (addTTL goodAdapter ⟨10, "sid", false, false⟩
          (freshOp goodAdapter ⟨10, "sid", false, false⟩ []
            ⟨"", [], 0, false, false, false⟩ "x" "T0").store
          (freshOp goodAdapter ⟨10, "sid", false, false⟩ []
            ⟨"", [], 0, false, false, false⟩ "x" "T0").sess 5).store
        (addTTL goodAdapter ⟨10, "sid", false, false⟩
          (freshOp goodAdapter ⟨10, "sid", false, false⟩ []
            ⟨"", [], 0, false, false, false⟩ "x" "T0").store
          (freshOp goodAdapter ⟨10, "sid", false, false⟩ []
            ⟨"", [], 0, false, false, false⟩ "x" "T0").sess 5).sess).effs =
      [10] ∧
    ([5] : List Int) ≠ [10] := by
  decide

/-- Claim C8 (amended): in cookie mode, at every state where the code invokes
the synchronizer — a fresh session whose pending field still holds the
configured default (as `Fresh` sets it), or a non-fresh session with a
nonzero pending delta — the advertised `Expires` offset equals the TTL that
`Save` persists from the same state: the configured default when fresh, the
encoded magnitude for a pending absolute set, and the delta plus the store's
remaining TTL (when positive) for a pending extend.  A fresh session whose
pending field was later overwritten by `AddTTL`/`SetTTL` instead advertises
the overwritten value. -/
theorem c8_sync_matches_save (o : Opt) (st : StoreSt) (s : Sess)
    (hmode : o.header = false) (hnoop : s.noop = false) (hid : s.id ≠ "")
    (hdirty : s.fresh = true ∨ s.modified = true)
    (hfr : s.fresh = true → s.ttl = o.ttl)
    (hinv : s.fresh = true ∨ s.ttl ≠ 0) :
    cookieOffsets (syncLocked goodAdapter o st s).2 =
      putTTLs (save goodAdapter o st s).effs := by
  have hg : ¬ (s.id = "" ∨ (s.fresh = false ∧ s.modified = false) ∨
      s.noop = true) := by
    rcases hdirty with h | h <;> simp [hid, hnoop, h]
  by_cases hf : s.fresh = true
  · have hteq : s.ttl = o.ttl := hfr hf
    simp [syncLocked, save, hf, hid, hnoop, hmode, goodAdapter,
      cookieOffsets, putTTLs, hteq]
  · have hf0 : s.fresh = false := Bool.eq_false_iff.mpr hf
    have hm : s.modified = true := hdirty.resolve_left (by simp [hf0])
    have htne : s.ttl ≠ 0 := by
      rcases hinv with h | h
      · exact absurd h hf
      · exact h
    by_cases hneg : s.ttl < 0
    · have hnp : ¬ s.ttl > 0 := by omega
      simp [syncLocked, save, hf0, hm, hid, hnoop, hmode, goodAdapter,
        cookieOffsets, putTTLs, hneg, hnp]
    · have hp : s.ttl > 0 := by omega
      simp only [syncLocked, save, hid, hnoop, hmode, hm, hneg, hf0, hp,
        goodAdapter, cookieOffsets, putTTLs]
      by_cases hr : storeTTLv st (sKey s) > 0
      · have hrn : ¬ storeTTLv st (sKey s) ≤ 0 := by omega
        simp [hr, hrn, hneg, hm, cookieOffsets, putTTLs, Int.add_comm]
      · have hrn : storeTTLv st (sKey s) ≤ 0 := by omega
        simp [hr, hrn, hneg, hm, cookieOffsets, putTTLs]

/-- Witness for C8 (amended): pending extend 5 over remaining TTL 7 — the
cookie advertises offset 12 and `Save` persists TTL 12. -/
theorem c8_witness :
    (⟨10, "sid", false, false⟩ : Opt).header = false ∧
    cookieOffsets (syncLocked goodAdapter ⟨10, "sid", false, false⟩
        [("ses-i", [], 7)] ⟨"i", [], 5, false, true, false⟩).2 =
      putTTLs (save goodAdapter ⟨10, "sid", false, false⟩ [("ses-i", [], 7)]
        ⟨"i", [], 5, false, true, false⟩).effs :=
  ⟨by decide,
   c8_sync_matches_save ⟨10, "sid", false, false⟩ [("ses-i", [], 7)]
     ⟨"i", [], 5, false, true, false⟩ (by decide) (by decide) (by decide)
     (Or.inr rfl) (fun h => by simp at h) (Or.inr (by decide))⟩

/-- One handler mutation: a `Set` or a `Delete` call. -/
inductive MutOp where
  | mset (k : String) (v : Val) : MutOp
  | mdel (k : String) : MutOp
  deriving DecidableEq

/-- Apply a sequence of handler mutations to a session. -/
def applyMuts (s : Sess) : List MutOp → Sess
  | [] => s
  | .mset k v :: rest => applyMuts (setOp s k v) rest
  | .mdel k :: rest => applyMuts (deleteOp s k) rest

/-- `Set` only touches `data` and `modified`. -/
theorem setOp_frame (s : Sess) (k : String) (v : Val) :
    (setOp s k v).id = s.id ∧ (setOp s k v).ttl = s.ttl ∧
    (setOp s k v).fresh = s.fresh ∧ (setOp s k v).noop = s.noop := by
  unfold setOp
  split_ifs <;> exact ⟨rfl, rfl, rfl, rfl⟩

/-- `Delete` only touches `data` and `modified`. -/
theorem deleteOp_frame (s : Sess) (k : String) :
    (deleteOp s k).id = s.id ∧ (deleteOp s k).ttl = s.ttl ∧
    (deleteOp s k).fresh = s.fresh ∧ (deleteOp s k).noop = s.noop := by
  unfold deleteOp
  split_ifs <;> exact ⟨rfl, rfl, rfl, rfl⟩

/-- `Set` preserves the no-duplicate-keys invariant. -/
theorem keysND_setOp (s : Sess) (k : String) (v : Val)
    (h : keysND s.data = true) : keysND (setOp s k v).data = true := by
  unfold setOp
  split_ifs
  · exact h
  · exact h
  · exact keysND_mapSet _ _ _ h

/-- `Delete` preserves the no-duplicate-keys invariant. -/
theorem keysND_deleteOp (s : Sess) (k : String)
    (h : keysND s.data = true) : keysND (deleteOp s k).data = true := by
  unfold deleteOp
  split_ifs
  · exact h
  · exact keysND_mapDel _ _ h

/-- A mutation sequence only touches `data` and `modified`. -/
theorem applyMuts_frame (ops : List MutOp) (s : Sess) :
    (applyMuts s ops).id = s.id ∧ (applyMuts s ops).ttl = s.ttl ∧
    (applyMuts s ops).fresh = s.fresh ∧ (applyMuts s ops).noop = s.noop := by
  induction ops generalizing s with
  | nil => exact ⟨rfl, rfl, rfl, rfl⟩
  | cons op rest ih =>
    cases op with
    | mset k v =>
      have h1 := setOp_frame s k v
      have h2 := ih (setOp s k v)
      exact ⟨h2.1.trans h1.1, h2.2.1.trans h1.2.1, h2.2.2.1.trans h1.2.2.1,
        h2.2.2.2.trans h1.2.2.2⟩
    | mdel k =>
      have h1 := deleteOp_frame s k
      have h2 := ih (deleteOp s k)
      exact ⟨h2.1.trans h1.1, h2.2.1.trans h1.2.1, h2.2.2.1.trans h1.2.2.1,
        h2.2.2.2.trans h1.2.2.2⟩

/-- A mutation sequence preserves the no-duplicate-keys invariant. -/
theorem keysND_applyMuts (ops : List MutOp) (s : Sess)
    (h : keysND s.data = true) : keysND (applyMuts s ops).data = true := by
  induction ops generalizing s with
  | nil => exact h
  | cons op rest ih =>
    cases op with
    | mset k v => exact ih _ (keysND_setOp s k v h)
    | mdel k => exact ih _ (keysND_deleteOp s k h)

/-- On the reference store, a `Save` that is not a no-op and not on the
absent-key `Update` path succeeds and writes the serialized data at the
session key with some TTL. -/
theorem save_writes (o : Opt) (st : StoreSt) (s : Sess)
    (hid : s.id ≠ "") (hnoop : s.noop = false)
    (hdirty : s.fresh = true ∨ s.modified = true)
    (hwrite : s.fresh = true ∨ s.ttl ≠ 0 ∨
      (storeLookup st (sKey s)).isSome = true) :
    (save goodAdapter o st s).res = .ok () ∧
    ∃ T, (save goodAdapter o st s).store =
      storePut st (sKey s) (jsonMarshal s.data) T := by
  by_cases hf : s.fresh = true
  · refine ⟨?_, o.ttl, ?_⟩ <;> simp [save, hid, hnoop, hf, goodAdapter]
  · have hf0 : s.fresh = false := Bool.eq_false_iff.mpr hf
    have hm : s.modified = true := hdirty.resolve_left (by simp [hf0])
    by_cases hp : s.ttl > 0
    · refine ⟨?_, if storeTTLv st (sKey s) ≤ 0 then s.ttl
          else storeTTLv st (sKey s) + s.ttl, ?_⟩ <;>
        simp [save, hid, hnoop, hm, hf0, hp, goodAdapter]
    · by_cases hneg : s.ttl < 0
      · refine ⟨?_, -s.ttl, ?_⟩ <;>
          simp [save, hid, hnoop, hm, hf0, hp, hneg, goodAdapter]
      · have h0 : s.ttl = 0 := by omega
        have hpres : (storeLookup st (sKey s)).isSome = true := by
          rcases hwrite with h | h | h
          · exact absurd h hf
          · exact absurd h0 h
          · exact h
        obtain ⟨⟨b, t⟩, hbt⟩ := Option.isSome_iff_exists.mp hpres
        refine ⟨?_, t, ?_⟩ <;>
          simp [save, hid, hnoop, hm, hf0, hp, hneg, goodAdapter, hbt]

/-- Claim C4: a sequence of `Set`/`Delete` calls on a live session (data
well-formed, not a read-only miss, and in a state from which `Save` performs
a write), followed by a successful `Save` and then a `Load` on a new session
instance with the same store and id, returns true and yields data
extensionally equal to the data at the time of `Save`: the round trip
through the serialized store record. -/
theorem c4_roundtrip (o : Opt) (st : StoreSt) (s : Sess) (ops : List MutOp)
    (hnd : keysND s.data = true) (hnoop : s.noop = false) (hid : s.id ≠ "")
    (hdirty : (applyMuts s ops).fresh = true ∨
      (applyMuts s ops).modified = true)
    (hwrite : s.fresh = true ∨ s.ttl ≠ 0 ∨
      (storeLookup st (sKey s)).isSome = true) :
    (save goodAdapter o st (applyMuts s ops)).res = .ok () ∧
    (load goodAdapter (save goodAdapter o st (applyMuts s ops)).store
        ⟨s.id, [], 0, false, false, false⟩).res = .ok true ∧
    ∀ k, mapGet (load goodAdapter
        (save goodAdapter o st (applyMuts s ops)).store
        ⟨s.id, [], 0, false, false, false⟩).sess.data k =
      mapGet (applyMuts s ops).data k := by
  have hfr := applyMuts_frame ops s
  have hid1 : (applyMuts s ops).id ≠ "" := by
    rw [hfr.1]
    exact hid
  have hnoop1 : (applyMuts s ops).noop = false := by
    rw [hfr.2.2.2]
    exact hnoop
  have hkey : sKey (applyMuts s ops) = sKey s := by
    simp [sKey, hfr.1]
  have hwrite1 : (applyMuts s ops).fresh = true ∨ (applyMuts s ops).ttl ≠ 0 ∨
      (storeLookup st (sKey (applyMuts s ops))).isSome = true := by
    rw [hfr.2.2.1, hfr.2.1, hkey]
    exact hwrite
  have hnd1 : keysND (applyMuts s ops).data = true := keysND_applyMuts ops s hnd
  obtain ⟨hres, T, hstore⟩ :=
    save_writes o st (applyMuts s ops) hid1 hnoop1 hdirty hwrite1
  have hk2 : sKey (⟨s.id, [], 0, false, false, false⟩ : Sess) =
      sKey (applyMuts s ops) := by
    simp [sKey, hfr.1]
  have hl : load goodAdapter (save goodAdapter o st (applyMuts s ops)).store
      ⟨s.id, [], 0, false, false, false⟩ =
      ⟨.ok true,
       ⟨s.id, jsonMarshal (applyMuts s ops).data, 0, false, false, false⟩,
       (save goodAdapter o st (applyMuts s ops)).store,
       [.existsE (sKey (applyMuts s ops)), .getE (sKey (applyMuts s ops))]⟩ := by
    rw [hstore]
    simp [load, hid, hk2, goodAdapter, storeLookup_storePut, jsonUnmarshal]
  refine ⟨hres, ?_, ?_⟩
  · rw [hl]
  · intro k
    rw [hl]
    exact mapGet_jsonMarshal (applyMuts s ops).data k hnd1

/-- Witness for C4: a fresh session with `created_at`, one `Set` of
`role = admin`, saved to an empty store, reloads with the same binding. -/
theorem c4_witness :
    keysND [("created_at", Val.vstr "T")] = true ∧
    mapGet (load goodAdapter (save goodAdapter ⟨10, "sid", false, false⟩ []
        (applyMuts ⟨"i", [("created_at", Val.vstr "T")], 0, true, true,
          false⟩ [.mset "role" (.vstr "admin")])).store
        ⟨"i", [], 0, false, false, false⟩).sess.data "role" =
      mapGet (applyMuts ⟨"i", [("created_at", Val.vstr "T")], 0, true, true,
          false⟩ [.mset "role" (.vstr "admin")]).data "role" :=
  ⟨by decide,
   (c4_roundtrip ⟨10, "sid", false, false⟩ []
      ⟨"i", [("created_at", Val.vstr "T")], 0, true, true, false⟩
      [.mset "role" (.vstr "admin")] (by decide) (by decide) (by decide)
      (by decide) (by decide)).2.2 "role"⟩

end GoHttp
